import Mathlib

/-!
Shallow embedding of the document CRUD service in
src/app/api/[[...route]]/document.ts.

The storage (serverStorage / localStorage) holds five collections keyed by
fixed names; each handler reads them, transforms them and writes them back.
The embedding makes the store an explicit record of five lists and each
handler a pure function from the store (plus the request data, the caller's
user id and the clock readings) to a result and a new store.

JavaScript dynamic values that the handlers test for truthiness or compare
with === are embedded as the JsValue type; ISO timestamp strings and
Date.now readings are embedded as naturals supplied by the caller (the
code's clock is external real time), and the fresh ids the update handler
mints per inserted child record (Date.now() plus a random offset) are
supplied as a counter threaded through the handler. Free-form JSON objects
(personal info and the per-item resume data) are embedded as association
lists of field name to JsValue, with the record keys id and docId that the
server manages kept as structure fields.
-/

namespace ResumeBuilder

/-- A JavaScript value as far as the handlers inspect one: the handlers only
test truthiness and compare against string literals with strict equality. -/
inductive JsValue where
  | vUndefined : JsValue
  | vNull : JsValue
  | vBool : Bool → JsValue
  | vNum : Int → JsValue
  | vStr : String → JsValue
deriving DecidableEq

/-- JavaScript truthiness: undefined, null, false, 0 and the empty string
are falsy; every other embedded value is truthy. -/
def JsValue.truthy : JsValue → Bool
  | .vUndefined => false
  | .vNull => false
  | .vBool b => b
  | .vNum n => decide (n ≠ 0)
  | .vStr s => decide (s ≠ "")

/-- Strict equality of a JavaScript value against a string: v === s is true
exactly when v is the string s (no coercion under ===). -/
def JsValue.eqStr : JsValue → String → Bool
  | .vStr t, s => decide (t = s)
  | _, _ => false

/-- A free-form JSON object as the handlers use one: an association list of
field name to value. Spreading is modelled up to key lookup. -/
abbrev Fields := List (String × JsValue)

/-- First binding of a key in an association list (JS property access). -/
def lookupField : Fields → String → Option JsValue
  | [], _ => none
  | (k, v) :: rest, key => if k = key then some v else lookupField rest key

/-- JavaScript object spread of old then incoming: every key of the incoming
object takes its incoming value, every other key of old keeps its value.
The incoming bindings are listed first so that lookupField prefers them. -/
def mergeFields (old incoming : Fields) : Fields :=
  incoming ++ old.filter (fun kv => (lookupField incoming kv.1).isNone)

/-- A personalInfo, experience, education or skills record as stored: a raw
JavaScript object. The server writes its id and docId properties as
ordinary keys, which a later spread with payload data last can override, so
they are not kept apart from the other fields. -/
abbrev JsObject := Fields

/-- JavaScript property access: the bound value, or undefined when the
object has no such key. -/
def propOf (r : Fields) (k : String) : JsValue :=
  (lookupField r k).getD JsValue.vUndefined

/-- Rest destructuring that removes one key, as in const (id, ...data). -/
def stripField (r : Fields) (k : String) : Fields :=
  r.filter (fun kv => decide (kv.1 ≠ k))

/-- A record of the documents collection (document.ts lines 85 to 95 list
the fields create writes; update adds thumbnail, summary, themeColor and
currentPosition when truthy values arrive). -/
structure Document where
  id : Nat
  documentId : String
  userId : String
  authorName : String
  authorEmail : String
  title : JsValue
  thumbnail : JsValue
  summary : JsValue
  themeColor : JsValue
  currentPosition : JsValue
  status : JsValue
  createdAt : Nat
  updatedAt : Nat
deriving DecidableEq

/-- The body of an update request as destructured on document.ts lines 161
and 162. Scalar fields absent from the JSON body arrive as undefined; an
array field is Option-valued, some exactly when the body value passes the
truthiness (and for the child arrays the Array.isArray) test; the
personalInfo object and each array element are raw objects, whose id and
docId keys, when supplied, take part in the handler's spreads. -/
structure UpdatePayload where
  title : JsValue
  thumbnail : JsValue
  summary : JsValue
  themeColor : JsValue
  status : JsValue
  currentPosition : JsValue
  personalInfo : Option Fields
  experience : Option (List Fields)
  education : Option (List Fields)
  skills : Option (List Fields)
deriving DecidableEq

/-- The five collections of the storage. -/
structure Store where
  documents : List Document
  personalInfo : List JsObject
  experience : List JsObject
  education : List JsObject
  skills : List JsObject
deriving DecidableEq

/-- The POST /create handler (document.ts lines 75 to 108): build the new
document with status private, createdAt and updatedAt both set to the one
timestamp read, and push it onto the documents collection. The documentId
comes from generateDocUUID and the internal id from Date.now(), both
supplied here as arguments. Returns the new document and the new store. -/
def createDocument (s : Store) (userId title authorName authorEmail : String)
    (docUUID : String) (nowId : Nat) (timestamp : Nat) : Document × Store :=
  let newDoc : Document :=
    { id := nowId
      documentId := docUUID
      userId := userId
      authorName := authorName
      authorEmail := authorEmail
      title := JsValue.vStr title
      thumbnail := JsValue.vUndefined
      summary := JsValue.vUndefined
      themeColor := JsValue.vUndefined
      currentPosition := JsValue.vUndefined
      status := JsValue.vStr "private"
      createdAt := timestamp
      updatedAt := timestamp }
  (newDoc, { s with documents := s.documents ++ [newDoc] })

/-- Modelled from the spec: generateDocUUID lives in the repository's
lib/helper module, which is not among the staged source files. The spec
says create "Generates a new documentId" and states the invariant that
"documentId is globally unique", so the generator is modelled by the
assumption that the id it returns differs from every documentId in use. -/
def freshDocUUID (s : Store) (u : String) : Prop :=
  ∀ d ∈ s.documents, d.documentId ≠ u

/-- The predicate of the findIndex on document.ts lines 150 to 152: the
document with the requested external documentId owned by the caller. -/
def docKey (documentId userId : String) (d : Document) : Bool :=
  decide (d.documentId = documentId ∧ d.userId = userId)

/-- The six truthiness-guarded scalar assignments of document.ts lines 164
to 169 followed by the unconditional updatedAt refresh of line 171, applied
to the found document. -/
def updateDocScalars (d : Document) (p : UpdatePayload) (now : Nat) : Document :=
  { d with
    title := if p.title.truthy then p.title else d.title
    thumbnail := if p.thumbnail.truthy then p.thumbnail else d.thumbnail
    summary := if p.summary.truthy then p.summary else d.summary
    themeColor := if p.themeColor.truthy then p.themeColor else d.themeColor
    status := if p.status.truthy then p.status else d.status
    currentPosition := if p.currentPosition.truthy then p.currentPosition else d.currentPosition
    updatedAt := now }

/-- The documents collection after the in-place mutation of the record at
the findIndex position: the first record matching docKey is replaced by its
scalar update, every other record is untouched. -/
def updateDocList : List Document → String → String → UpdatePayload → Nat → List Document
  | [], _, _, _, _ => []
  | d :: rest, documentId, userId, p, now =>
    if docKey documentId userId d then updateDocScalars d p now :: rest
    else d :: updateDocList rest documentId userId p now

/-- The personalInfo upsert of document.ts lines 174 to 191: the first
record whose docId property is the document's internal id is replaced by
the spread of the record with the payload last (so payload id or docId keys
override the stored ones); when none exists, the push spreads the literal
id Date.now() (the freshId argument) and docId the document's internal id
with the payload last, so payload id or docId keys override those too. -/
def upsertPersonal (docIdKey : Nat) (payload : Fields) (freshId : Nat) :
    List JsObject → List JsObject
  | [] =>
    [mergeFields [("id", JsValue.vNum freshId), ("docId", JsValue.vNum docIdKey)] payload]
  | info :: rest =>
    if propOf info "docId" = JsValue.vNum docIdKey then
      mergeFields info payload :: rest
    else info :: upsertPersonal docIdKey payload freshId rest

/-- The update-by-id branch of the child loops (document.ts lines 198 to
208 and their education and skills copies): the first record whose id and
docId properties match is replaced by the spread of the record with the
incoming data last (a docId key in that data overrides the stored foreign
key); when none matches, the loop body does nothing and the collection is
returned unchanged (the silent drop). -/
def mergeChildById (itemId : JsValue) (docIdKey : Nat) (payload : Fields) :
    List JsObject → List JsObject
  | [] => []
  | it :: rest =>
    if propOf it "id" = itemId ∧ propOf it "docId" = JsValue.vNum docIdKey then
      mergeFields it payload :: rest
    else it :: mergeChildById itemId docIdKey payload rest

/-- One child loop of the update handler (document.ts lines 194 to 217 and
the education and skills copies): each item is destructured into its id
property and the rest of its data; items whose id is not undefined are
merged by mergeChildById, items without one are pushed by spreading the
literal freshly minted id (Date.now() plus a random offset, modelled by the
threaded counter) and docId the document's internal id with the data last,
so a docId key in the data overrides the literal foreign key. -/
def applyChildren (docIdKey : Nat) : List JsObject → List Fields → Nat →
    List JsObject × Nat
  | items, [], ctr => (items, ctr)
  | items, pl :: rest, ctr =>
    if propOf pl "id" ≠ JsValue.vUndefined then
      applyChildren docIdKey
        (mergeChildById (propOf pl "id") docIdKey (stripField pl "id") items) rest ctr
    else
      applyChildren docIdKey
        (items ++ [mergeFields [("id", JsValue.vNum ctr), ("docId", JsValue.vNum docIdKey)]
          (stripField pl "id")]) rest (ctr + 1)

/-- The failure results of the PATCH update handler: the 400 of document.ts
line 139 when the documentId parameter is falsy, and the 404 of line 155
when no owned document matches. -/
inductive UpdateError where
  | missingDocumentId : UpdateError
  | notFound : UpdateError
deriving DecidableEq

/-- The experience loop guarded by its truthiness and Array.isArray test
(document.ts line 194): absent payload leaves the collection and the
freshness counter untouched. -/
def experienceAfter (s : Store) (p : UpdatePayload) (ctr docIdKey : Nat) :
    List JsObject × Nat :=
  match p.experience with
  | none => (s.experience, ctr)
  | some ps => applyChildren docIdKey s.experience ps ctr

/-- The education loop guarded by its test (document.ts line 220). -/
def educationAfter (s : Store) (p : UpdatePayload) (ctr docIdKey : Nat) :
    List JsObject × Nat :=
  match p.education with
  | none => (s.education, ctr)
  | some ps => applyChildren docIdKey s.education ps ctr

/-- The skills loop guarded by its test (document.ts line 246). -/
def skillsAfter (s : Store) (p : UpdatePayload) (ctr docIdKey : Nat) :
    List JsObject × Nat :=
  match p.skills with
  | none => (s.skills, ctr)
  | some ps => applyChildren docIdKey s.skills ps ctr

/-- The successful body of the update handler once the owned document has
been found (document.ts lines 158 to 276): scalar updates on the documents
collection, the personalInfo upsert, and the three child loops, written
back as the new store. The freshness counter starts at ctr and is threaded
through the three child loops in order. -/
def applyPayload (s : Store) (documentId userId : String) (p : UpdatePayload)
    (now ctr : Nat) (existingDocument : Document) : Store :=
  let experiencePair := experienceAfter s p ctr existingDocument.id
  let educationPair := educationAfter s p experiencePair.2 existingDocument.id
  let skillsPair := skillsAfter s p educationPair.2 existingDocument.id
  { documents := updateDocList s.documents documentId userId p now
    personalInfo := match p.personalInfo with
      | none => s.personalInfo
      | some fields => upsertPersonal existingDocument.id fields now s.personalInfo
    experience := experiencePair.1
    education := educationPair.1
    skills := skillsPair.1 }

/-- The PATCH /update/:documentId handler (document.ts lines 122 to 296):
reject a falsy documentId, look the document up by documentId and owner,
answer 404 when none matches, and otherwise apply the payload. -/
def updateDocument (s : Store) (documentId userId : String) (p : UpdatePayload)
    (now ctr : Nat) : Except UpdateError Store :=
  if documentId = "" then Except.error UpdateError.missingDocumentId
  else
    match s.documents.find? (docKey documentId userId) with
    | none => Except.error UpdateError.notFound
    | some existingDocument =>
      Except.ok (applyPayload s documentId userId p now ctr existingDocument)

/-- The store after an update request: the new store on success, the
untouched store on a failure response (the handler returns before any
mutation on both failure paths). -/
def applyUpdate (s : Store) (documentId userId : String) (p : UpdatePayload)
    (now ctr : Nat) : Store :=
  match updateDocument s documentId userId p now ctr with
  | Except.ok s' => s'
  | Except.error _ => s

/-- One update request of a sequence: its payload, its clock reading and
its freshness counter. -/
structure UpdateStep where
  payload : UpdatePayload
  time : Nat
  ctr : Nat
deriving DecidableEq

/-- Run one update request of a sequence against the store. -/
def stepUpdate (documentId userId : String) (s : Store) (u : UpdateStep) : Store :=
  applyUpdate s documentId userId u.payload u.time u.ctr

/-- The updatedAt field of the owned document, when it exists. -/
def updatedAtOf (s : Store) (documentId userId : String) : Option Nat :=
  (s.documents.find? (docKey documentId userId)).map Document.updatedAt

/-- The updatedAt values observed on the owned document after each update
request of a sequence. -/
def updatedAtTrace (documentId userId : String) : Store → List UpdateStep → List Nat
  | _, [] => []
  | s, u :: rest =>
    let s' := stepUpdate documentId userId s u
    (updatedAtOf s' documentId userId).getD 0 :: updatedAtTrace documentId userId s' rest

/-- The results of the PATCH /restore/archive handler: the 400 of
document.ts line 308 for a falsy documentId, the 400 of lines 311 to 316
when the body status is not the string archived, the 404 of line 329 when
no owned archived document matches, and the 200 carrying the restored
document. -/
inductive RestoreResult where
  | missingDocumentId : RestoreResult
  | invalidState : RestoreResult
  | notFound : RestoreResult
  | restored : Document → RestoreResult
deriving DecidableEq

/-- The predicate of the findIndex on document.ts lines 322 to 326: same
external documentId (strict equality of the body value against the stored
string), same owner, and stored status archived. -/
def restoreMatch (documentId : JsValue) (userId : String) (d : Document) : Bool :=
  documentId.eqStr d.documentId && decide (d.userId = userId) &&
    decide (d.status = JsValue.vStr "archived")

/-- The documents collection after the in-place restore at the findIndex
position, together with the restored record: the first record matching
restoreMatch gets status private and a refreshed updatedAt; none when no
record matches. -/
def restoreDocList (documentId : JsValue) (userId : String) (now : Nat) :
    List Document → Option (Document × List Document)
  | [] => none
  | d :: rest =>
    if restoreMatch documentId userId d then
      let d' := { d with status := JsValue.vStr "private", updatedAt := now }
      some (d', d' :: rest)
    else
      match restoreDocList documentId userId now rest with
      | none => none
      | some (x, l) => some (x, d :: l)

/-- The PATCH /restore/archive handler (document.ts lines 298 to 358): the
falsy-documentId guard runs first, the status guard second, and only then
is the owned archived document looked up and flipped to private. -/
def restoreFromArchive (s : Store) (userId : String) (documentId statusArg : JsValue)
    (now : Nat) : RestoreResult × Store :=
  if !documentId.truthy then (RestoreResult.missingDocumentId, s)
  else if statusArg ≠ JsValue.vStr "archived" then (RestoreResult.invalidState, s)
  else
    match restoreDocList documentId userId now s.documents with
    | none => (RestoreResult.notFound, s)
    | some (d, docs) => (RestoreResult.restored d, { s with documents := docs })

/-- The filter predicate of the GET /all handler (document.ts lines 369 to
371): owned by the caller and not archived. -/
def activeKey (userId : String) (d : Document) : Bool :=
  decide (d.userId = userId ∧ d.status ≠ JsValue.vStr "archived")

/-- The comparator of the sort on document.ts lines 374 to 376 orders by
updatedAt descending; the sort is modelled by mergeSort under the matching
boolean order (the original leaves the order of equal timestamps to the
engine). -/
def byUpdatedAtDesc (a b : Document) : Bool :=
  decide (b.updatedAt ≤ a.updatedAt)

/-- The GET /all handler (document.ts lines 360 to 393): the caller's
non-archived documents sorted by updatedAt descending. -/
def listDocuments (s : Store) (userId : String) : List Document :=
  (s.documents.filter (activeKey userId)).mergeSort byUpdatedAtDesc

/-- The filter predicate of the GET /trash/all handler (document.ts lines
526 to 528): owned by the caller and archived. -/
def archivedKey (userId : String) (d : Document) : Bool :=
  decide (d.userId = userId ∧ d.status = JsValue.vStr "archived")

/-- The GET /trash/all handler (document.ts lines 517 to 545): the caller's
archived documents, unsorted. -/
def listArchivedDocuments (s : Store) (userId : String) : List Document :=
  s.documents.filter (archivedKey userId)

/-- The joined payload both fetch handlers return: the document with its
personalInfo record and the child records whose docId is the document's
internal id (document.ts lines 426 to 429 and 489 to 492). -/
structure Aggregate where
  document : Document
  personalInfo : Option JsObject
  experiences : List JsObject
  educations : List JsObject
  skills : List JsObject
deriving DecidableEq

/-- Build the joined aggregate for a found document: each related record is
matched by its docId property against the document's internal id. -/
def joinAggregate (s : Store) (d : Document) : Aggregate :=
  { document := d
    personalInfo := s.personalInfo.find? (fun info => decide (propOf info "docId" = JsValue.vNum d.id))
    experiences := s.experience.filter (fun it => decide (propOf it "docId" = JsValue.vNum d.id))
    educations := s.education.filter (fun it => decide (propOf it "docId" = JsValue.vNum d.id))
    skills := s.skills.filter (fun it => decide (propOf it "docId" = JsValue.vNum d.id)) }

/-- The predicate of the find on document.ts lines 474 to 476: requested
external documentId and status public; the owner is not consulted. -/
def publicKey (documentId : String) (d : Document) : Bool :=
  decide (d.documentId = documentId ∧ d.status = JsValue.vStr "public")

/-- The GET /public/doc/:documentId handler (document.ts lines 454 to 516):
the joined aggregate of the public document with the requested id, none
standing for the 401 unauthorized response. -/
def getPublicDoc (s : Store) (documentId : String) : Option Aggregate :=
  (s.documents.find? (publicKey documentId)).map (joinAggregate s)

/-- The public route is registered without the getAuthUser middleware
(document.ts lines 454 to 462), so whatever identity the caller may carry
is never read: the endpoint is the same function of the store and the
documentId for every caller. -/
def getPublicEndpoint (s : Store) (documentId : String) (_caller : Option String) :
    Option Aggregate :=
  getPublicDoc s documentId

/-!
Helper lemmas about the embedded operations.
-/

/-- An incoming child item whose id property is defined but matches no
record of the collection for this document: the loop body finds no match
and drops it. -/
def unmatched (items : List JsObject) (docIdKey : Nat) (pl : Fields) : Prop :=
  propOf pl "id" ≠ JsValue.vUndefined ∧
  ∀ it ∈ items, ¬(propOf it "id" = propOf pl "id" ∧ propOf it "docId" = JsValue.vNum docIdKey)

/-- The record the insert branch of a child loop pushes for one incoming
item without an id: the literal fresh id and document docId spread with the
item's remaining data last. -/
def insertedChild (docIdKey freshId : Nat) (pl : Fields) : JsObject :=
  mergeFields [("id", JsValue.vNum freshId), ("docId", JsValue.vNum docIdKey)]
    (stripField pl "id")

/-- The records a child loop pushes for a list of incoming items without
ids, with consecutive freshly minted ids from the counter. -/
def insertedChildren (docIdKey : Nat) : List Fields → Nat → List JsObject
  | [], _ => []
  | pl :: rest, ctr => insertedChild docIdKey ctr pl :: insertedChildren docIdKey rest (ctr + 1)

theorem lookupField_append (a b : Fields) (k : String) :
    lookupField (a ++ b) k
      = if (lookupField a k).isSome then lookupField a k else lookupField b k := by
  induction a with
  | nil => simp [lookupField]
  | cons kv rest ih =>
    obtain ⟨k₀, v₀⟩ := kv
    by_cases h : k₀ = k
    · simp [lookupField, h]
    · simpa [lookupField, h] using ih

theorem lookupField_filter (incoming old : Fields) (k : String)
    (h : lookupField incoming k = none) :
    lookupField (old.filter (fun kv => (lookupField incoming kv.1).isNone)) k
      = lookupField old k := by
  induction old with
  | nil => rfl
  | cons kv rest ih =>
    obtain ⟨k₀, v₀⟩ := kv
    by_cases hk : k₀ = k
    · subst hk
      simp [List.filter_cons, h, lookupField]
    · by_cases hp : (lookupField incoming k₀).isNone
      · simpa [List.filter_cons, hp, lookupField, hk] using ih
      · simpa [List.filter_cons, hp, lookupField, hk] using ih

theorem lookupField_mergeFields (old incoming : Fields) (k : String) :
    lookupField (mergeFields old incoming) k
      = if (lookupField incoming k).isSome then lookupField incoming k
        else lookupField old k := by
  unfold mergeFields
  rw [lookupField_append]
  cases h : lookupField incoming k with
  | none => simp [lookupField_filter incoming old k h]
  | some v => simp

theorem docKey_updateDocScalars (documentId userId : String) (d : Document)
    (p : UpdatePayload) (now : Nat) :
    docKey documentId userId (updateDocScalars d p now) = docKey documentId userId d := rfl

theorem find?_updateDocList (l : List Document) (documentId userId : String)
    (p : UpdatePayload) (now : Nat) (d : Document)
    (h : l.find? (docKey documentId userId) = some d) :
    (updateDocList l documentId userId p now).find? (docKey documentId userId)
      = some (updateDocScalars d p now) := by
  induction l with
  | nil => simp at h
  | cons d₀ rest ih =>
    by_cases h₀ : docKey documentId userId d₀
    · rw [List.find?_cons_of_pos _ h₀] at h
      obtain rfl := Option.some.inj h
      rw [updateDocList, if_pos h₀]
      exact List.find?_cons_of_pos _ (by rw [docKey_updateDocScalars]; exact h₀)
    · rw [List.find?_cons_of_neg _ h₀] at h
      rw [updateDocList, if_neg h₀]
      rw [List.find?_cons_of_neg _ h₀]
      exact ih h

theorem mem_updateDocList (l : List Document) (documentId userId : String)
    (p : UpdatePayload) (now : Nat) (d : Document)
    (h : l.find? (docKey documentId userId) = some d) :
    updateDocScalars d p now ∈ updateDocList l documentId userId p now :=
  List.mem_of_find?_eq_some (find?_updateDocList l documentId userId p now d h)

theorem lookupField_stripField_self (r : Fields) (k : String) :
    lookupField (stripField r k) k = none := by
  induction r with
  | nil => rfl
  | cons kv rest ih =>
    obtain ⟨k₀, v₀⟩ := kv
    by_cases h : k₀ = k
    · simpa [stripField, List.filter_cons, h] using ih
    · simpa [stripField, List.filter_cons, h, lookupField] using ih

theorem lookupField_stripField_ne (r : Fields) (k k' : String) (h : k' ≠ k) :
    lookupField (stripField r k) k' = lookupField r k' := by
  induction r with
  | nil => rfl
  | cons kv rest ih =>
    obtain ⟨k₀, v₀⟩ := kv
    by_cases h₀ : k₀ = k
    · subst h₀
      simpa [stripField, List.filter_cons, lookupField, Ne.symm h] using ih
    · by_cases h₁ : k₀ = k'
      · subst h₁
        simp [stripField, List.filter_cons, h, lookupField]
      · simpa [stripField, List.filter_cons, h₀, lookupField, h₁] using ih

theorem propOf_insertedChild_id (docIdKey freshId : Nat) (pl : Fields) :
    propOf (insertedChild docIdKey freshId pl) "id" = JsValue.vNum freshId := by
  rw [insertedChild, propOf, lookupField_mergeFields, lookupField_stripField_self]
  rfl

theorem propOf_insertedChild_docId (docIdKey freshId : Nat) (pl : Fields)
    (h : lookupField pl "docId" = none) :
    propOf (insertedChild docIdKey freshId pl) "docId" = JsValue.vNum docIdKey := by
  rw [insertedChild, propOf, lookupField_mergeFields,
    lookupField_stripField_ne pl "id" "docId" (by decide), h]
  rfl

theorem insertedChildren_docId (docIdKey : Nat) (ps : List Fields) (ctr : Nat)
    (h : ∀ pl ∈ ps, lookupField pl "docId" = none) :
    ∀ r ∈ insertedChildren docIdKey ps ctr, propOf r "docId" = JsValue.vNum docIdKey := by
  induction ps generalizing ctr with
  | nil =>
    intro r hr
    cases hr
  | cons pl rest ih =>
    intro r hr
    rcases List.mem_cons.mp hr with rfl | hr'
    · exact propOf_insertedChild_docId docIdKey ctr pl (h pl (by simp))
    · exact ih (ctr + 1) (fun q hq => h q (List.mem_cons_of_mem _ hq)) r hr'

theorem insertedChildren_id (docIdKey : Nat) (ps : List Fields) (ctr : Nat) :
    ∀ r ∈ insertedChildren docIdKey ps ctr,
      ∃ m, ctr ≤ m ∧ propOf r "id" = JsValue.vNum m := by
  induction ps generalizing ctr with
  | nil =>
    intro r hr
    cases hr
  | cons pl rest ih =>
    intro r hr
    rcases List.mem_cons.mp hr with rfl | hr'
    · exact ⟨ctr, Nat.le_refl ctr, propOf_insertedChild_id docIdKey ctr pl⟩
    · obtain ⟨m, hm, hid⟩ := ih (ctr + 1) r hr'
      exact ⟨m, by omega, hid⟩

theorem upsertPersonal_no_match (docIdKey : Nat) (payload : Fields) (freshId : Nat)
    (items : List JsObject) (h : ∀ r ∈ items, propOf r "docId" ≠ JsValue.vNum docIdKey) :
    upsertPersonal docIdKey payload freshId items
      = items
        ++ [mergeFields [("id", JsValue.vNum freshId), ("docId", JsValue.vNum docIdKey)]
              payload] := by
  induction items with
  | nil => rfl
  | cons info rest ih =>
    have hinfo : propOf info "docId" ≠ JsValue.vNum docIdKey := h info (by simp)
    rw [upsertPersonal, if_neg hinfo, ih (fun r hr => h r (List.mem_cons_of_mem _ hr))]
    simp

theorem upsertPersonal_split (docIdKey : Nat) (payload : Fields) (freshId : Nat)
    (l₁ : List JsObject) (r : JsObject) (l₂ : List JsObject)
    (h₁ : ∀ x ∈ l₁, propOf x "docId" ≠ JsValue.vNum docIdKey)
    (hr : propOf r "docId" = JsValue.vNum docIdKey) :
    upsertPersonal docIdKey payload freshId (l₁ ++ r :: l₂)
      = l₁ ++ mergeFields r payload :: l₂ := by
  induction l₁ with
  | nil => simp [upsertPersonal, hr]
  | cons x rest ih =>
    have hx : propOf x "docId" ≠ JsValue.vNum docIdKey := h₁ x (by simp)
    have ih' := ih (fun y hy => h₁ y (List.mem_cons_of_mem _ hy))
    simp only [List.cons_append, upsertPersonal, if_neg hx, List.append_eq] at ih' ⊢
    rw [ih']

theorem mergeChildById_no_match (itemId : JsValue) (docIdKey : Nat) (payload : Fields)
    (items : List JsObject)
    (h : ∀ it ∈ items, ¬(propOf it "id" = itemId ∧ propOf it "docId" = JsValue.vNum docIdKey)) :
    mergeChildById itemId docIdKey payload items = items := by
  induction items with
  | nil => rfl
  | cons it rest ih =>
    have hit : ¬(propOf it "id" = itemId ∧ propOf it "docId" = JsValue.vNum docIdKey) :=
      h it (by simp)
    rw [mergeChildById, if_neg hit, ih (fun x hx => h x (List.mem_cons_of_mem _ hx))]

theorem mergeChildById_split (itemId : JsValue) (docIdKey : Nat) (payload : Fields)
    (l₁ : List JsObject) (it : JsObject) (l₂ : List JsObject)
    (h₁ : ∀ x ∈ l₁, ¬(propOf x "id" = itemId ∧ propOf x "docId" = JsValue.vNum docIdKey))
    (hit : propOf it "id" = itemId ∧ propOf it "docId" = JsValue.vNum docIdKey) :
    mergeChildById itemId docIdKey payload (l₁ ++ it :: l₂)
      = l₁ ++ mergeFields it payload :: l₂ := by
  induction l₁ with
  | nil => simp [mergeChildById, hit]
  | cons x rest ih =>
    have hx : ¬(propOf x "id" = itemId ∧ propOf x "docId" = JsValue.vNum docIdKey) :=
      h₁ x (by simp)
    have ih' := ih (fun y hy => h₁ y (List.mem_cons_of_mem _ hy))
    simp only [List.cons_append, mergeChildById, if_neg hx, List.append_eq] at ih' ⊢
    rw [ih']

theorem applyChildren_all_unmatched (docIdKey : Nat) (items : List JsObject)
    (ps : List Fields) (ctr : Nat)
    (h : ∀ pl ∈ ps, unmatched items docIdKey pl) :
    applyChildren docIdKey items ps ctr = (items, ctr) := by
  induction ps with
  | nil => rfl
  | cons pl rest ih =>
    obtain ⟨hid, hno⟩ := h pl (by simp)
    rw [applyChildren, if_pos hid,
      mergeChildById_no_match (propOf pl "id") docIdKey (stripField pl "id") items hno]
    exact ih (fun q hq => h q (List.mem_cons_of_mem _ hq))

theorem applyChildren_all_inserts (docIdKey : Nat) (items : List JsObject)
    (ps : List Fields) (ctr : Nat)
    (h : ∀ pl ∈ ps, propOf pl "id" = JsValue.vUndefined) :
    applyChildren docIdKey items ps ctr
      = (items ++ insertedChildren docIdKey ps ctr, ctr + ps.length) := by
  induction ps generalizing items ctr with
  | nil => simp [applyChildren, insertedChildren]
  | cons pl rest ih =>
    have hid : propOf pl "id" = JsValue.vUndefined := h pl (by simp)
    rw [applyChildren, if_neg (by simp [hid]),
      ih _ (ctr + 1) (fun q hq => h q (List.mem_cons_of_mem _ hq)), insertedChildren]
    refine Prod.ext ?_ ?_
    · show (items ++ [insertedChild docIdKey ctr pl]) ++ insertedChildren docIdKey rest (ctr + 1)
        = items ++ insertedChild docIdKey ctr pl :: insertedChildren docIdKey rest (ctr + 1)
      simp
    · show ctr + 1 + rest.length = ctr + (pl :: rest).length
      simp only [List.length_cons]
      omega

theorem restoreDocList_none (documentId : JsValue) (userId : String) (now : Nat)
    (l : List Document) (h : ∀ d ∈ l, restoreMatch documentId userId d = false) :
    restoreDocList documentId userId now l = none := by
  induction l with
  | nil => rfl
  | cons d rest ih =>
    have hd : restoreMatch documentId userId d = false := h d (by simp)
    rw [restoreDocList, if_neg (by simp [hd])]
    rw [ih (fun x hx => h x (List.mem_cons_of_mem _ hx))]

theorem restoreDocList_split (documentId : JsValue) (userId : String) (now : Nat)
    (l₁ : List Document) (d : Document) (l₂ : List Document)
    (h₁ : ∀ x ∈ l₁, restoreMatch documentId userId x = false)
    (hd : restoreMatch documentId userId d = true) :
    restoreDocList documentId userId now (l₁ ++ d :: l₂)
      = some ({ d with status := JsValue.vStr "private", updatedAt := now },
          l₁ ++ { d with status := JsValue.vStr "private", updatedAt := now } :: l₂) := by
  induction l₁ with
  | nil => simp [restoreDocList, hd]
  | cons x rest ih =>
    have hx : restoreMatch documentId userId x = false := h₁ x (by simp)
    have ih' := ih (fun y hy => h₁ y (List.mem_cons_of_mem _ hy))
    simp only [List.cons_append, restoreDocList,
      if_neg (by simp [hx] : ¬restoreMatch documentId userId x = true),
      List.append_eq] at ih' ⊢
    rw [ih']

theorem updateDocument_ok (s : Store) (documentId userId : String) (p : UpdatePayload)
    (now ctr : Nat) (d : Document) (hne : documentId ≠ "")
    (hfind : s.documents.find? (docKey documentId userId) = some d) :
    updateDocument s documentId userId p now ctr
      = Except.ok (applyPayload s documentId userId p now ctr d) := by
  simp [updateDocument, hne, hfind]

theorem stepUpdate_find (documentId userId : String) (s : Store) (u : UpdateStep)
    (d : Document) (hne : documentId ≠ "")
    (hfind : s.documents.find? (docKey documentId userId) = some d) :
    (stepUpdate documentId userId s u).documents.find? (docKey documentId userId)
      = some (updateDocScalars d u.payload u.time) := by
  have hok := updateDocument_ok s documentId userId u.payload u.time u.ctr d hne hfind
  show (applyUpdate s documentId userId u.payload u.time u.ctr).documents.find?
      (docKey documentId userId) = some (updateDocScalars d u.payload u.time)
  rw [applyUpdate, hok]
  exact find?_updateDocList s.documents documentId userId u.payload u.time d hfind

theorem updatedAtTrace_eq (documentId userId : String) (steps : List UpdateStep)
    (s : Store) (d : Document) (hne : documentId ≠ "")
    (hfind : s.documents.find? (docKey documentId userId) = some d) :
    updatedAtTrace documentId userId s steps = steps.map UpdateStep.time := by
  induction steps generalizing s d with
  | nil => rfl
  | cons u rest ih =>
    have hf' := stepUpdate_find documentId userId s u d hne hfind
    have hhead : (updatedAtOf (stepUpdate documentId userId s u) documentId userId).getD 0
        = u.time := by
      simp [updatedAtOf, hf', updateDocScalars]
    have htail := ih (stepUpdate documentId userId s u) (updateDocScalars d u.payload u.time) hf'
    simp only [updatedAtTrace, List.map_cons]
    rw [hhead, htail]

/-!
Concrete fixtures used by the witnesses and the counterexample.
-/

/-- A private document owned by user-1. -/
def doc1 : Document :=
  { id := 11
    documentId := "doc-1"
    userId := "user-1"
    authorName := "Ada L"
    authorEmail := "ada@mail.test"
    title := JsValue.vStr "cv"
    thumbnail := JsValue.vUndefined
    summary := JsValue.vUndefined
    themeColor := JsValue.vUndefined
    currentPosition := JsValue.vUndefined
    status := JsValue.vStr "private"
    createdAt := 1
    updatedAt := 1 }

/-- An archived document owned by user-1. -/
def doc2 : Document :=
  { doc1 with id := 12, documentId := "doc-2", status := JsValue.vStr "archived", updatedAt := 2 }

/-- The personalInfo record of doc1. -/
def pinfo1 : JsObject :=
  [("id", JsValue.vNum 21), ("docId", JsValue.vNum 11), ("firstName", JsValue.vStr "Ada")]

/-- An experience record of doc1. -/
def exp1 : JsObject :=
  [("id", JsValue.vNum 31), ("docId", JsValue.vNum 11), ("company", JsValue.vStr "Acme")]

/-- A small store: two documents of user-1, one personalInfo record and one
experience record attached to doc1. -/
def store1 : Store :=
  { documents := [doc1, doc2]
    personalInfo := [pinfo1]
    experience := [exp1]
    education := []
    skills := [] }

/-- An update payload with a falsy title and a truthy summary and no nested
collections. -/
def payload1 : UpdatePayload :=
  { title := JsValue.vStr ""
    thumbnail := JsValue.vUndefined
    summary := JsValue.vStr "updated summary"
    themeColor := JsValue.vNum 0
    status := JsValue.vUndefined
    currentPosition := JsValue.vBool false
    personalInfo := none
    experience := none
    education := none
    skills := none }

/-- An update payload naming an experience id that no record of the target
document carries. -/
def payload2 : UpdatePayload :=
  { payload1 with
    title := JsValue.vUndefined
    summary := JsValue.vUndefined
    themeColor := JsValue.vUndefined
    currentPosition := JsValue.vUndefined
    experience := some [[("id", JsValue.vNum 999), ("company", JsValue.vStr "Nowhere")]] }

/-- An update payload carrying only a personalInfo object. -/
def payload3 : UpdatePayload :=
  { payload2 with
    experience := none
    personalInfo := some [("firstName", JsValue.vStr "Grace")] }

/-- An update payload whose one experience item has no id but does carry a
docId key of its own. -/
def payloadCx : UpdatePayload :=
  { payload3 with
    personalInfo := none
    experience := some [[("docId", JsValue.vNum 999), ("company", JsValue.vStr "X")]] }

/-- An update payload whose personalInfo object carries a docId key of its
own. -/
def payloadC9x : UpdatePayload :=
  { payload3 with personalInfo := some [("docId", JsValue.vNum 999)] }

/-- A two-request update sequence with non-decreasing clock readings. -/
def steps1 : List UpdateStep :=
  [{ payload := payload1, time := 5, ctr := 0 }, { payload := payload2, time := 7, ctr := 0 }]

/-!
The claims.
-/

/-- C1: for every document owned by the caller, the update operation
overwrites each of the six scalar fields only when the incoming value is
truthy, so an empty string, a zero or false leaves the stored value
unchanged while a truthy incoming value replaces it; the updated document
lands in the stored documents collection. -/
theorem claim_C1_truthy_scalar_overwrite (s : Store) (documentId userId : String)
    (p : UpdatePayload) (now ctr : Nat) (d : Document)
    (hne : documentId ≠ "")
    (hfind : s.documents.find? (docKey documentId userId) = some d) :
    ∃ s', updateDocument s documentId userId p now ctr = Except.ok s' ∧
      updateDocScalars d p now ∈ s'.documents ∧
      (updateDocScalars d p now).title = (if p.title.truthy then p.title else d.title) ∧
      (updateDocScalars d p now).thumbnail
        = (if p.thumbnail.truthy then p.thumbnail else d.thumbnail) ∧
      (updateDocScalars d p now).summary
        = (if p.summary.truthy then p.summary else d.summary) ∧
      (updateDocScalars d p now).themeColor
        = (if p.themeColor.truthy then p.themeColor else d.themeColor) ∧
      (updateDocScalars d p now).status = (if p.status.truthy then p.status else d.status) ∧
      (updateDocScalars d p now).currentPosition
        = (if p.currentPosition.truthy then p.currentPosition else d.currentPosition) ∧
      JsValue.truthy (JsValue.vStr "") = false ∧
      JsValue.truthy (JsValue.vNum 0) = false ∧
      JsValue.truthy (JsValue.vBool false) = false := by
  refine ⟨applyPayload s documentId userId p now ctr d,
    updateDocument_ok s documentId userId p now ctr d hne hfind,
    ?_, rfl, rfl, rfl, rfl, rfl, rfl, rfl, rfl, rfl⟩
  show updateDocScalars d p now ∈ updateDocList s.documents documentId userId p now
  exact mem_updateDocList s.documents documentId userId p now d hfind

/-- Witness for C1 at the concrete store: the update request succeeds and
stores the scalar-updated document. -/
theorem claim_C1_witness : ∃ s',
    updateDocument store1 "doc-1" "user-1" payload1 5 0 = Except.ok s' ∧
    updateDocScalars doc1 payload1 5 ∈ s'.documents := by
  obtain ⟨s', h₁, h₂, -⟩ :=
    claim_C1_truthy_scalar_overwrite store1 "doc-1" "user-1" payload1 5 0 doc1
      (by decide) (by decide)
  exact ⟨s', h₁, h₂⟩

/-- C10: when no stored document has both the requested documentId and the
caller's userId, the update request answers 404 and the whole store is left
unchanged. -/
theorem claim_C10_not_found_atomic (s : Store) (documentId userId : String)
    (p : UpdatePayload) (now ctr : Nat) (hne : documentId ≠ "")
    (hmiss : ∀ d ∈ s.documents, ¬(d.documentId = documentId ∧ d.userId = userId)) :
    updateDocument s documentId userId p now ctr = Except.error UpdateError.notFound ∧
    applyUpdate s documentId userId p now ctr = s := by
  have hnone : s.documents.find? (docKey documentId userId) = none :=
    List.find?_eq_none.mpr (fun x hx => by simpa [docKey] using hmiss x hx)
  constructor
  · simp [updateDocument, hne, hnone]
  · simp [applyUpdate, updateDocument, hne, hnone]

/-- Witness for C10: doc-1 exists but belongs to user-1, so an update by
user-2 answers 404 and leaves the store as it was. -/
theorem claim_C10_witness :
    updateDocument store1 "doc-1" "user-2" payload1 5 0 = Except.error UpdateError.notFound ∧
    applyUpdate store1 "doc-1" "user-2" payload1 5 0 = store1 :=
  claim_C10_not_found_atomic store1 "doc-1" "user-2" payload1 5 0 (by decide)
    (by decide)

/-- C7: updatedAt is refreshed to the clock reading unconditionally by the
scalar update (whatever the payload holds), the trace of updatedAt values
over any sequence of successful updates on an owned document is exactly the
sequence of clock readings, and under the real-time assumption that those
readings are non-decreasing the trace is monotonically non-decreasing. -/
theorem claim_C7_updatedAt_monotone (documentId userId : String) (s : Store)
    (d : Document) (steps : List UpdateStep) (p : UpdatePayload) (now : Nat)
    (hne : documentId ≠ "")
    (hfind : s.documents.find? (docKey documentId userId) = some d) :
    (updateDocScalars d p now).updatedAt = now ∧
    updatedAtTrace documentId userId s steps = steps.map UpdateStep.time ∧
    (List.Chain' (fun a b => a ≤ b) (steps.map UpdateStep.time) →
      List.Chain' (fun a b => a ≤ b) (updatedAtTrace documentId userId s steps)) := by
  refine ⟨rfl, updatedAtTrace_eq documentId userId steps s d hne hfind, ?_⟩
  intro hchain
  rw [updatedAtTrace_eq documentId userId steps s d hne hfind]
  exact hchain

/-- Witness for C7: running the two-request sequence on the concrete store
observes exactly the two clock readings, in order. -/
theorem claim_C7_witness :
    updatedAtTrace "doc-1" "user-1" store1 steps1 = [5, 7] ∧
    List.Chain' (fun a b => a ≤ b) (updatedAtTrace "doc-1" "user-1" store1 steps1) := by
  have h := claim_C7_updatedAt_monotone "doc-1" "user-1" store1 doc1 steps1 payload1 5
    (by decide) (by decide)
  refine ⟨h.2.1, h.2.2 ?_⟩
  show List.Chain' (fun a b => a ≤ b) [5, 7]
  norm_num [List.chain'_cons, List.chain'_singleton]

/-- C8: create appends exactly one new record to the documents collection
and returns it, with status private, the caller as owner, the requested
title, createdAt equal to updatedAt, and (under the spec-modelled freshness
of the generated UUID) a documentId unique among all stored documents; the
four other collections are untouched. -/
theorem claim_C8_create (s : Store) (userId title authorName authorEmail docUUID : String)
    (nowId timestamp : Nat) (hfresh : freshDocUUID s docUUID) :
    (createDocument s userId title authorName authorEmail docUUID nowId timestamp).2.documents
      = s.documents
        ++ [(createDocument s userId title authorName authorEmail docUUID nowId timestamp).1] ∧
    (createDocument s userId title authorName authorEmail docUUID nowId timestamp).1.status
      = JsValue.vStr "private" ∧
    (createDocument s userId title authorName authorEmail docUUID nowId timestamp).1.userId
      = userId ∧
    (createDocument s userId title authorName authorEmail docUUID nowId timestamp).1.title
      = JsValue.vStr title ∧
    (createDocument s userId title authorName authorEmail docUUID nowId timestamp).1.documentId
      = docUUID ∧
    (createDocument s userId title authorName authorEmail docUUID nowId timestamp).1.createdAt
      = (createDocument s userId title authorName authorEmail docUUID nowId timestamp).1.updatedAt ∧
    List.countP (fun x => decide (x.documentId = docUUID))
      (createDocument s userId title authorName authorEmail docUUID nowId timestamp).2.documents
      = 1 ∧
    (createDocument s userId title authorName authorEmail docUUID nowId timestamp).2.personalInfo
      = s.personalInfo ∧
    (createDocument s userId title authorName authorEmail docUUID nowId timestamp).2.experience
      = s.experience ∧
    (createDocument s userId title authorName authorEmail docUUID nowId timestamp).2.education
      = s.education ∧
    (createDocument s userId title authorName authorEmail docUUID nowId timestamp).2.skills
      = s.skills := by
  refine ⟨rfl, rfl, rfl, rfl, rfl, rfl, ?_, rfl, rfl, rfl, rfl⟩
  show List.countP (fun x => decide (x.documentId = docUUID)) (s.documents ++ [_]) = 1
  rw [List.countP_append]
  have h0 : List.countP (fun x => decide (x.documentId = docUUID)) s.documents = 0 :=
    List.countP_eq_zero.mpr (fun a ha => by simpa using hfresh a ha)
  rw [h0]
  simp

/-- Witness for C8 at the concrete store with a fresh UUID. -/
theorem claim_C8_witness :
    (createDocument store1 "user-1" "new cv" "Ada L" "ada@mail.test" "doc-3" 13 4).2.documents
      = store1.documents
        ++ [(createDocument store1 "user-1" "new cv" "Ada L" "ada@mail.test" "doc-3" 13 4).1] ∧
    List.countP (fun x => decide (x.documentId = "doc-3"))
      (createDocument store1 "user-1" "new cv" "Ada L" "ada@mail.test" "doc-3" 13 4).2.documents
      = 1 := by
  have h := claim_C8_create store1 "user-1" "new cv" "Ada L" "ada@mail.test" "doc-3" 13 4
    (by intro d hd; fin_cases hd <;> decide)
  exact ⟨h.1, h.2.2.2.2.2.2.1⟩

/-- Counterexample to C2 as stated: updating doc-1 with one experience
item without an id whose data itself carries a docId key inserts a record
whose docId property is the payload's value, not the document's internal
id, because the push spreads the item data after the literal docId
(document.ts lines 210 to 214). -/
theorem claim_C2_counterexample :
    (applyUpdate store1 "doc-1" "user-1" payloadCx 7 50).experience
      = store1.experience
        ++ [[("docId", JsValue.vNum 999), ("company", JsValue.vStr "X"),
             ("id", JsValue.vNum 50)]] ∧
    propOf [("docId", JsValue.vNum 999), ("company", JsValue.vStr "X"),
      ("id", JsValue.vNum 50)] "docId" ≠ JsValue.vNum doc1.id := by
  constructor
  · decide
  · decide

/-- C2 as amended: on an update of an owned document, every incoming
experience, education or skills item whose id is defined but matches no
record of this document is silently dropped: the request still succeeds
and, when every item of the payload list is such, the collection is left
unchanged; every incoming item without an id is inserted as a new record
built by spreading the literal fresh id and document docId with the item's
data last, so each inserted record carries a freshly minted id from the
counter and, whenever its data does not itself supply a docId key, docId
equal to the document's internal id (a supplied docId key overrides the
foreign key). -/
theorem claim_C2_child_drop_or_insert (s : Store) (documentId userId : String)
    (p : UpdatePayload) (now ctr : Nat) (d : Document)
    (hne : documentId ≠ "")
    (hfind : s.documents.find? (docKey documentId userId) = some d) :
    ∃ s', updateDocument s documentId userId p now ctr = Except.ok s' ∧
      (∀ ps, p.experience = some ps → (∀ pl ∈ ps, unmatched s.experience d.id pl) →
        s'.experience = s.experience) ∧
      (∀ ps, p.education = some ps → (∀ pl ∈ ps, unmatched s.education d.id pl) →
        s'.education = s.education) ∧
      (∀ ps, p.skills = some ps → (∀ pl ∈ ps, unmatched s.skills d.id pl) →
        s'.skills = s.skills) ∧
      (∀ ps, p.experience = some ps → (∀ pl ∈ ps, propOf pl "id" = JsValue.vUndefined) →
        s'.experience = s.experience ++ insertedChildren d.id ps ctr) ∧
      (∀ ps, p.education = some ps → (∀ pl ∈ ps, propOf pl "id" = JsValue.vUndefined) →
        ∃ c, s'.education = s.education ++ insertedChildren d.id ps c) ∧
      (∀ ps, p.skills = some ps → (∀ pl ∈ ps, propOf pl "id" = JsValue.vUndefined) →
        ∃ c, s'.skills = s.skills ++ insertedChildren d.id ps c) ∧
      (∀ ps c, (∀ pl ∈ ps, lookupField pl "docId" = none) →
        ∀ r ∈ insertedChildren d.id ps c, propOf r "docId" = JsValue.vNum d.id) ∧
      (∀ ps c, ∀ r ∈ insertedChildren d.id ps c,
        ∃ m, c ≤ m ∧ propOf r "id" = JsValue.vNum m) := by
  refine ⟨applyPayload s documentId userId p now ctr d,
    updateDocument_ok s documentId userId p now ctr d hne hfind,
    ?_, ?_, ?_, ?_, ?_, ?_,
    fun ps c h => insertedChildren_docId d.id ps c h,
    fun ps c => insertedChildren_id d.id ps c⟩
  · intro ps hp hall
    show (experienceAfter s p ctr d.id).1 = s.experience
    rw [experienceAfter, hp]
    show (applyChildren d.id s.experience ps ctr).1 = s.experience
    rw [applyChildren_all_unmatched d.id s.experience ps ctr hall]
  · intro ps hp hall
    show (educationAfter s p (experienceAfter s p ctr d.id).2 d.id).1 = s.education
    rw [educationAfter, hp]
    show (applyChildren d.id s.education ps (experienceAfter s p ctr d.id).2).1 = s.education
    rw [applyChildren_all_unmatched d.id s.education ps (experienceAfter s p ctr d.id).2 hall]
  · intro ps hp hall
    show (skillsAfter s p (educationAfter s p (experienceAfter s p ctr d.id).2 d.id).2 d.id).1
      = s.skills
    rw [skillsAfter, hp]
    show (applyChildren d.id s.skills ps
      (educationAfter s p (experienceAfter s p ctr d.id).2 d.id).2).1 = s.skills
    rw [applyChildren_all_unmatched d.id s.skills ps
      (educationAfter s p (experienceAfter s p ctr d.id).2 d.id).2 hall]
  · intro ps hp hall
    show (experienceAfter s p ctr d.id).1 = _
    rw [experienceAfter, hp]
    show (applyChildren d.id s.experience ps ctr).1 = _
    rw [applyChildren_all_inserts d.id s.experience ps ctr hall]
  · intro ps hp hall
    refine ⟨(experienceAfter s p ctr d.id).2, ?_⟩
    show (educationAfter s p (experienceAfter s p ctr d.id).2 d.id).1 = _
    rw [educationAfter, hp]
    show (applyChildren d.id s.education ps (experienceAfter s p ctr d.id).2).1 = _
    rw [applyChildren_all_inserts d.id s.education ps (experienceAfter s p ctr d.id).2 hall]
  · intro ps hp hall
    refine ⟨(educationAfter s p (experienceAfter s p ctr d.id).2 d.id).2, ?_⟩
    show (skillsAfter s p (educationAfter s p (experienceAfter s p ctr d.id).2 d.id).2 d.id).1 = _
    rw [skillsAfter, hp]
    show (applyChildren d.id s.skills ps
      (educationAfter s p (experienceAfter s p ctr d.id).2 d.id).2).1 = _
    rw [applyChildren_all_inserts d.id s.skills ps
      (educationAfter s p (experienceAfter s p ctr d.id).2 d.id).2 hall]

/-- Witness for C2 as amended: updating doc-1 with an experience item
naming id 999, which no record of doc-1 carries, succeeds and leaves the
experience collection exactly as it was. -/
theorem claim_C2_witness : ∃ s',
    updateDocument store1 "doc-1" "user-1" payload2 7 0 = Except.ok s' ∧
    s'.experience = store1.experience := by
  obtain ⟨s', hok, hdrop, -⟩ :=
    claim_C2_child_drop_or_insert store1 "doc-1" "user-1" payload2 7 0 doc1
      (by decide) (by decide)
  refine ⟨s', hok,
    hdrop [[("id", JsValue.vNum 999), ("company", JsValue.vStr "Nowhere")]] rfl ?_⟩
  intro pl hpl
  rw [List.mem_singleton] at hpl
  subst hpl
  exact ⟨by decide, by decide⟩

/-- Counterexample to C9 as stated: updating doc-2, which has no
personalInfo record, with a personalInfo payload carrying a docId key
appends a record whose docId property is the payload's value, not the
document's internal id, because the push spreads the payload after the
literal docId (document.ts lines 185 to 189). -/
theorem claim_C9_counterexample :
    (applyUpdate store1 "doc-2" "user-1" payloadC9x 8 0).personalInfo
      = store1.personalInfo ++ [[("docId", JsValue.vNum 999), ("id", JsValue.vNum 8)]] ∧
    propOf [("docId", JsValue.vNum 999), ("id", JsValue.vNum 8)] "docId"
      ≠ JsValue.vNum doc2.id := by
  constructor
  · decide
  · decide

/-- C9 as amended: an update carrying a personalInfo payload upserts: the
first record whose docId property equals the document's internal id is
replaced by the spread of the record with the payload last (payload fields
overwrite under lookup, every other field is kept); when none exists, a new
record is appended by spreading the literal fresh id and the document's
docId with the payload last, so the appended record carries the fresh id
and the document's internal docId exactly when the payload does not itself
supply id or docId keys (supplied ones override). -/
theorem claim_C9_personal_info_upsert (s : Store) (documentId userId : String)
    (p : UpdatePayload) (now ctr : Nat) (d : Document) (fields : Fields)
    (hne : documentId ≠ "")
    (hfind : s.documents.find? (docKey documentId userId) = some d)
    (hp : p.personalInfo = some fields) :
    ∃ s', updateDocument s documentId userId p now ctr = Except.ok s' ∧
      s'.personalInfo = upsertPersonal d.id fields now s.personalInfo ∧
      ((∀ r ∈ s.personalInfo, propOf r "docId" ≠ JsValue.vNum d.id) →
        s'.personalInfo = s.personalInfo
          ++ [mergeFields [("id", JsValue.vNum now), ("docId", JsValue.vNum d.id)] fields]) ∧
      (lookupField fields "id" = none →
        propOf (mergeFields [("id", JsValue.vNum now), ("docId", JsValue.vNum d.id)] fields)
          "id" = JsValue.vNum now) ∧
      (lookupField fields "docId" = none →
        propOf (mergeFields [("id", JsValue.vNum now), ("docId", JsValue.vNum d.id)] fields)
          "docId" = JsValue.vNum d.id) ∧
      (∀ l₁ r l₂, s.personalInfo = l₁ ++ r :: l₂ →
        (∀ x ∈ l₁, propOf x "docId" ≠ JsValue.vNum d.id) →
        propOf r "docId" = JsValue.vNum d.id →
        s'.personalInfo = l₁ ++ mergeFields r fields :: l₂) ∧
      (∀ old k, lookupField (mergeFields old fields) k
        = if (lookupField fields k).isSome then lookupField fields k
          else lookupField old k) := by
  have hbase : (applyPayload s documentId userId p now ctr d).personalInfo
      = upsertPersonal d.id fields now s.personalInfo := by
    show (match p.personalInfo with
      | none => s.personalInfo
      | some f => upsertPersonal d.id f now s.personalInfo)
      = upsertPersonal d.id fields now s.personalInfo
    rw [hp]
  refine ⟨applyPayload s documentId userId p now ctr d,
    updateDocument_ok s documentId userId p now ctr d hne hfind, hbase, ?_, ?_, ?_, ?_,
    fun old k => lookupField_mergeFields old fields k⟩
  · intro hno
    rw [hbase, upsertPersonal_no_match d.id fields now s.personalInfo hno]
  · intro hid
    rw [propOf, lookupField_mergeFields, hid]
    rfl
  · intro hdocid
    rw [propOf, lookupField_mergeFields, hdocid]
    rfl
  · intro l₁ r l₂ hsplit h₁ hr
    rw [hbase, hsplit, upsertPersonal_split d.id fields now l₁ r l₂ h₁ hr]

/-- Witness for C9 as amended: doc-1 already has a personalInfo record, so
the update with a personalInfo payload spread-merges into it in place. -/
theorem claim_C9_witness : ∃ s',
    updateDocument store1 "doc-1" "user-1" payload3 8 0 = Except.ok s' ∧
    s'.personalInfo = [mergeFields pinfo1 [("firstName", JsValue.vStr "Grace")]] := by
  obtain ⟨s', hok, -, -, -, -, hsplit, -⟩ :=
    claim_C9_personal_info_upsert store1 "doc-1" "user-1" payload3 8 0 doc1
      [("firstName", JsValue.vStr "Grace")] (by decide) (by decide) rfl
  refine ⟨s', hok, ?_⟩
  have h := hsplit [] pinfo1 [] rfl (by intro x hx; cases hx) (by decide)
  simpa using h

/-- Counterexample to C3 as stated: a restore request with a falsy
documentId and the non-archived status public is answered by the
missing-documentId 400 guard (document.ts line 308), not by the
InvalidState failure, even though the store holds an archived document of
the caller. -/
theorem claim_C3_counterexample :
    (restoreFromArchive store1 "user-1" (JsValue.vStr "") (JsValue.vStr "public") 9).1
        = RestoreResult.missingDocumentId ∧
    RestoreResult.missingDocumentId ≠ RestoreResult.invalidState := by
  constructor
  · rfl
  · intro h
    cases h

/-- C3 as amended: for every request whose documentId is truthy, a supplied
status other than the string archived is answered with InvalidState and the
store untouched, even when the target document actually is archived; when
the supplied status is archived, the first document matching documentId,
owner and stored status archived is flipped to private with its updatedAt
refreshed, and when none matches the answer is NotFound with the store
untouched. -/
theorem claim_C3_restore_guards (s : Store) (userId : String)
    (documentId statusArg : JsValue) (now : Nat)
    (htruthy : documentId.truthy = true) :
    (statusArg ≠ JsValue.vStr "archived" →
      restoreFromArchive s userId documentId statusArg now = (RestoreResult.invalidState, s)) ∧
    (statusArg = JsValue.vStr "archived" →
      ((∀ d ∈ s.documents, restoreMatch documentId userId d = false) →
        restoreFromArchive s userId documentId statusArg now = (RestoreResult.notFound, s)) ∧
      (∀ l₁ d l₂, s.documents = l₁ ++ d :: l₂ →
        (∀ x ∈ l₁, restoreMatch documentId userId x = false) →
        restoreMatch documentId userId d = true →
        restoreFromArchive s userId documentId statusArg now
          = (RestoreResult.restored
                { d with status := JsValue.vStr "private", updatedAt := now },
             { s with documents :=
                l₁ ++ { d with status := JsValue.vStr "private", updatedAt := now } :: l₂ }))) := by
  constructor
  · intro hst
    rw [restoreFromArchive, if_neg (by simp [htruthy]), if_pos hst]
  · intro hst
    constructor
    · intro hnone
      rw [restoreFromArchive, if_neg (by simp [htruthy]), if_neg (by simp [hst]),
        restoreDocList_none documentId userId now s.documents hnone]
    · intro l₁ d l₂ hsplit h₁ hd
      rw [restoreFromArchive, if_neg (by simp [htruthy]), if_neg (by simp [hst]), hsplit,
        restoreDocList_split documentId userId now l₁ d l₂ h₁ hd]

/-- Witness for C3 as amended: a truthy documentId naming the archived
doc-2 with the supplied status public is still rejected with InvalidState
and the store is untouched. -/
theorem claim_C3_witness :
    restoreFromArchive store1 "user-1" (JsValue.vStr "doc-2") (JsValue.vStr "public") 9
      = (RestoreResult.invalidState, store1) :=
  (claim_C3_restore_guards store1 "user-1" (JsValue.vStr "doc-2") (JsValue.vStr "public") 9
    (by decide)).1 (by decide)

theorem mem_listDocuments (s : Store) (userId : String) (d : Document) :
    d ∈ listDocuments s userId
      ↔ d ∈ s.documents ∧ d.userId = userId ∧ d.status ≠ JsValue.vStr "archived" := by
  show d ∈ (s.documents.filter (activeKey userId)).mergeSort byUpdatedAtDesc ↔ _
  rw [(List.mergeSort_perm (s.documents.filter (activeKey userId)) byUpdatedAtDesc).mem_iff,
    List.mem_filter]
  simp [activeKey]

theorem mem_listArchivedDocuments (s : Store) (userId : String) (d : Document) :
    d ∈ listArchivedDocuments s userId
      ↔ d ∈ s.documents ∧ d.userId = userId ∧ d.status = JsValue.vStr "archived" := by
  show d ∈ s.documents.filter (archivedKey userId) ↔ _
  rw [List.mem_filter]
  simp [archivedKey]

/-- C4: the public fetch answers with the joined aggregate exactly when
some stored document carries the requested documentId with status public;
it reads no caller identity (the endpoint is the same function for every
caller), and for a documentId whose document has any other status, or which
matches no document, it answers 401. -/
theorem claim_C4_public_read (s : Store) (documentId : String) :
    (∀ c₁ c₂ : Option String,
      getPublicEndpoint s documentId c₁ = getPublicEndpoint s documentId c₂) ∧
    ((∃ a, getPublicDoc s documentId = some a)
        ↔ ∃ d ∈ s.documents, d.documentId = documentId ∧ d.status = JsValue.vStr "public") ∧
    (∀ d, s.documents.find? (publicKey documentId) = some d →
      getPublicDoc s documentId = some (joinAggregate s d)) ∧
    ((∀ d ∈ s.documents, ¬(d.documentId = documentId ∧ d.status = JsValue.vStr "public")) →
      getPublicDoc s documentId = none) := by
  refine ⟨fun c₁ c₂ => rfl, ?_, ?_, ?_⟩
  · rw [getPublicDoc]
    cases hf : s.documents.find? (publicKey documentId) with
    | none =>
      rw [List.find?_eq_none] at hf
      simp only [Option.map_none', reduceCtorEq, exists_false, false_iff]
      rintro ⟨d, hd, hdoc, hstat⟩
      exact hf d hd (by simp [publicKey, hdoc, hstat])
    | some d =>
      have hd : publicKey documentId d = true := List.find?_some hf
      have hmem : d ∈ s.documents := List.mem_of_find?_eq_some hf
      simp only [publicKey, decide_eq_true_eq] at hd
      simp only [Option.map_some', Option.some.injEq]
      constructor
      · intro _
        exact ⟨d, hmem, hd.1, hd.2⟩
      · intro _
        exact ⟨joinAggregate s d, rfl⟩
  · intro d hf
    rw [getPublicDoc, hf, Option.map_some']
  · intro hmiss
    have hnone : s.documents.find? (publicKey documentId) = none :=
      List.find?_eq_none.mpr (fun x hx => by simpa [publicKey] using hmiss x hx)
    rw [getPublicDoc, hnone, Option.map_none']

/-- C5: the active listing returns exactly the caller's non-archived
documents (as a permutation of that filter, membership matching it), sorted
by updatedAt descending. -/
theorem claim_C5_list_active (s : Store) (userId : String) :
    (listDocuments s userId).Perm (s.documents.filter (activeKey userId)) ∧
    (∀ d, d ∈ listDocuments s userId
        ↔ d ∈ s.documents ∧ d.userId = userId ∧ d.status ≠ JsValue.vStr "archived") ∧
    List.Pairwise (fun a b => b.updatedAt ≤ a.updatedAt) (listDocuments s userId) := by
  refine ⟨List.mergeSort_perm (s.documents.filter (activeKey userId)) byUpdatedAtDesc,
    fun d => mem_listDocuments s userId d, ?_⟩
  have htrans : ∀ a b c : Document, byUpdatedAtDesc a b = true → byUpdatedAtDesc b c = true →
      byUpdatedAtDesc a c = true := by
    intro a b c hab hbc
    simp only [byUpdatedAtDesc, decide_eq_true_eq] at hab hbc ⊢
    omega
  have htotal : ∀ a b : Document, (byUpdatedAtDesc a b || byUpdatedAtDesc b a) = true := by
    intro a b
    simp only [byUpdatedAtDesc, Bool.or_eq_true, decide_eq_true_eq]
    omega
  have hp := List.sorted_mergeSort htrans htotal (s.documents.filter (activeKey userId))
  exact hp.imp (fun h => by simpa [byUpdatedAtDesc] using h)

/-- C6: no document returned by the active listing is archived, every
document of the archived listing is archived and owned by the caller, and
the two listings together contain exactly the caller's documents, with none
in both. -/
theorem claim_C6_partition (s : Store) (userId : String) :
    (∀ d ∈ listDocuments s userId, d.status ≠ JsValue.vStr "archived" ∧ d.userId = userId) ∧
    (∀ d ∈ listArchivedDocuments s userId,
      d.status = JsValue.vStr "archived" ∧ d.userId = userId) ∧
    (∀ d, d ∈ s.documents ∧ d.userId = userId
        ↔ (d ∈ listDocuments s userId ∨ d ∈ listArchivedDocuments s userId)) ∧
    (∀ d, ¬(d ∈ listDocuments s userId ∧ d ∈ listArchivedDocuments s userId)) := by
  refine ⟨?_, ?_, ?_, ?_⟩
  · intro d hd
    have h := (mem_listDocuments s userId d).1 hd
    exact ⟨h.2.2, h.2.1⟩
  · intro d hd
    have h := (mem_listArchivedDocuments s userId d).1 hd
    exact ⟨h.2.2, h.2.1⟩
  · intro d
    rw [mem_listDocuments s userId d, mem_listArchivedDocuments s userId d]
    constructor
    · rintro ⟨hmem, huid⟩
      by_cases harch : d.status = JsValue.vStr "archived"
      · exact Or.inr ⟨hmem, huid, harch⟩
      · exact Or.inl ⟨hmem, huid, harch⟩
    · rintro (⟨hmem, huid, -⟩ | ⟨hmem, huid, -⟩) <;> exact ⟨hmem, huid⟩
  · intro d hboth
    exact ((mem_listDocuments s userId d).1 hboth.1).2.2
      ((mem_listArchivedDocuments s userId d).1 hboth.2).2.2

end ResumeBuilder
